import Mathlib

set_option autoImplicit false

/-!
Shallow embedding of the sandboxzilla line-oriented communication harness.

The embedding follows the Python sources:
- `src/utils/event_handler.py` (class `EventHandler`): packet construction,
  `subscribe`, `unsubscribe`, `post`;
- `src/comm/base_dev_helper.py` (class `BaseCommDeviceHelper`): the session's
  two event buses keyed by channel name, `send`, `subscribe`/`unsubscribe`/
  `start`/`stop` channel routing, the `close` shutdown sequence, and the
  writer (`__process_output__`) and distributor (`__distribute_input__`) loops;
- `src/comm/ip_helper.py` (class `IPHelper`): the reassembly reader loop
  (`__process_input__`) and the framed `_send` hook.

Mutable Python state is passed explicitly; Python exceptions are modelled with
`Option`/`Except`; byte strings are lists of `Nat` codes and text strings are
lists of `Char`.
-/

namespace Sandboxzilla

/-! ## Event handler (src/utils/event_handler.py) -/

/-- Packet dictionary passed to subscriber callbacks.  `EventHandler.__init__`
stores the constructor kwargs as the base packet; the callers in this
repository pass `event` and `src`, and `__init__` defaults `dest`, `payload`
and `cookie` to `None` (lines 36-44). -/
structure Packet (α κ : Type) where
  event : Option String
  src : String
  dest : Option String
  payload : Option α
  cookie : Option κ
  deriving DecidableEq

/-- State of an `EventHandler`: the base packet and the insertion-ordered
callback registry `cb_routines` (a Python `dict` keyed by subscriber name;
each value holds the callback and its cookie).  Callbacks are represented by
an abstract tag type `β`; an interpretation function gives their behaviour at
each `post`. -/
structure EventHandler (α β κ : Type) where
  packet : Packet α κ
  cb_routines : List (String × β × Option κ)
  deriving DecidableEq

/-- Construction of an `EventHandler` (`__init__`, lines 25-46): the base
packet gets the given `event`/`src` and `None` for `dest`, `payload`,
`cookie`; `cb_routines` starts empty. -/
def EventHandler.init {α β κ : Type} (event : Option String) (src : String) :
    EventHandler α β κ :=
  { packet := { event := event, src := src, dest := none, payload := none, cookie := none },
    cb_routines := [] }

/-- Registration (`subscribe`, lines 48-51): add the callback under `name`
only when the name is not already a key; otherwise the call changes nothing.
Python dict insertion appends at the end of the iteration order. -/
def EventHandler.subscribe {α β κ : Type} (h : EventHandler α β κ)
    (name : String) (on_event : β) (cookie : Option κ) : EventHandler α β κ :=
  if h.cb_routines.any (fun r => r.1 == name) then h
  else { h with cb_routines := h.cb_routines ++ [(name, on_event, cookie)] }

/-- Removal (`unsubscribe`, lines 53-65): delete the entry keyed `name` when
present; no error when absent. -/
def EventHandler.unsubscribe {α β κ : Type} (h : EventHandler α β κ)
    (name : String) : EventHandler α β κ :=
  { h with cb_routines := h.cb_routines.filter (fun r => !(r.1 == name)) }

/-- Dispatch loop of `post` (lines 71-77): the single packet built by `post`
is threaded through the subscriber list; before each invocation the bus
rewrites `dest` to the subscriber's name and `cookie` to its registered
cookie on that shared packet, records the packet value the callback sees,
and the callback (interpreted by `invoke`, which may mutate the shared
packet) produces the packet state for the next iteration. -/
def postD {α β κ : Type} (invoke : β → Packet α κ → Packet α κ) :
    List (String × β × Option κ) → Packet α κ → List (String × β × Packet α κ)
  | [], _ => []
  | (nm, cb, ck) :: rest, p =>
    (nm, cb, { p with dest := some nm, cookie := ck }) ::
      postD invoke rest (invoke cb { p with dest := some nm, cookie := ck })

/-- Publication (`post`, lines 67-78): copy the base packet once, set its
`payload`, then iterate a snapshot of `cb_routines` dispatching as `postD`.
The callers in this repository pass no extra keyword fields, so the kwargs
update loop is the identity here.  The result is the list of
(name, callback, packet-as-seen) observations in invocation order. -/
def EventHandler.post {α β κ : Type} (h : EventHandler α β κ)
    (invoke : β → Packet α κ → Packet α κ) (payload : α) :
    List (String × β × Packet α κ) :=
  postD invoke h.cb_routines { h.packet with payload := some payload }

/-- Dispatch loop of `post` when a callback may raise: identical to `postD`
except that the interpretation returns `Except`; a raising callback stops the
iteration and the error propagates (the bus has no handler around the call). -/
def postDE {α β κ E : Type} (invoke : β → Packet α κ → Except E (Packet α κ)) :
    List (String × β × Option κ) → Packet α κ →
      Except E Unit × List (String × β × Packet α κ)
  | [], _ => (Except.ok (), [])
  | (nm, cb, ck) :: rest, p =>
    match invoke cb { p with dest := some nm, cookie := ck } with
    | Except.error e => (Except.error e, [(nm, cb, { p with dest := some nm, cookie := ck })])
    | Except.ok p2 =>
      let r := postDE invoke rest p2
      (r.1, (nm, cb, { p with dest := some nm, cookie := ck }) :: r.2)

/-- Result of a `post` call under raising callbacks: the handler afterwards
(the body of `post` never writes `cb_routines`, so it is returned as given),
the outcome, and the observations of the callbacks that were invoked. -/
structure PostRun (α β κ E : Type) where
  handler : EventHandler α β κ
  result : Except E Unit
  invoked : List (String × β × Packet α κ)

/-- Publication under raising callbacks (`post`, lines 67-78, with the stage
loop's perspective on an uncaught callback exception). -/
def EventHandler.postRaise {α β κ E : Type} (h : EventHandler α β κ)
    (invoke : β → Packet α κ → Except E (Packet α κ)) (payload : α) :
    PostRun α β κ E :=
  let r := postDE invoke h.cb_routines { h.packet with payload := some payload }
  { handler := h, result := r.1, invoked := r.2 }

/-! ## Line terminators and substring search (src/comm/ip_helper.py) -/

/-- The CRLF line terminator `"\r\n"` (class constant `EOL` in
`base_dev_helper.py`, line 36). -/
def crlf : List Char := ['\r', '\n']

/-- The bare LF line terminator `"\n"` (second element of `EOLL`,
`base_dev_helper.py` line 35). -/
def lf : List Char := ['\n']

/-- Boolean string-prefix test, auxiliary for the model of Python's
substring operator `in`. -/
def isPrefixL : List Char → List Char → Bool
  | [], _ => true
  | _ :: _, [] => false
  | a :: as, b :: bs => a == b && isPrefixL as bs

/-- Model of Python's substring containment `pat in s`: `pat` occurs as a
contiguous run somewhere in `s`. -/
def containsSub (pat : List Char) : List Char → Bool
  | [] => isPrefixL pat []
  | a :: t => isPrefixL pat (a :: t) || containsSub pat t

/-- The terminator test of the reader loop (`ip_helper.py` line 66) and of
`_send` (line 83): `"\r\n" in msg or "\n" in msg`. -/
def hasTerminator (msg : List Char) : Bool :=
  containsSub crlf msg || containsSub lf msg

/-- Python `bytes.decode('ascii')`: every byte must be below 128, else the
call raises `UnicodeDecodeError` (modelled as `none`). -/
def decodeAscii (bs : List Nat) : Option (List Char) :=
  if bs.all (fun b => b < 128) then some (bs.map Char.ofNat) else none

/-- Python `str.encode('ascii')`: every character must have a code below 128,
else the call raises `UnicodeEncodeError` (modelled as `none`); each character
becomes one byte. -/
def encodeAscii (s : List Char) : Option (List Nat) :=
  if s.all (fun c => c.toNat < 128) then some (s.map Char.toNat) else none

/-! ## Reader stage of the framed stream endpoint
(`IPHelper.__process_input__`, ip_helper.py lines 50-69) -/

/-- State of the reader loop: the private accumulator `msg` and the sequence
of messages put on the inbound queue so far. -/
structure ReaderState where
  msg : List Char
  outQ : List (List Char)
  deriving DecidableEq

/-- One iteration of the reader loop (lines 62-69) on a received chunk of
bytes: an empty (or absent) chunk changes nothing; otherwise the chunk is
ascii-decoded (a decode error kills the stage: `none`) and appended to the
accumulator; if the accumulator now contains `"\r\n"` or `"\n"`, the entire
accumulator is enqueued as one message and the accumulator is reset. -/
def readerStep (st : ReaderState) (chunk : List Nat) : Option ReaderState :=
  if chunk.length = 0 then some st
  else
    match decodeAscii chunk with
    | none => none
    | some d =>
      if hasTerminator (st.msg ++ d) then
        some { msg := [], outQ := st.outQ ++ [st.msg ++ d] }
      else
        some { msg := st.msg ++ d, outQ := st.outQ }

/-- The reader loop run over a sequence of received chunks. -/
def readerRun (st : ReaderState) : List (List Nat) → Option ReaderState
  | [] => some st
  | c :: rest =>
    match readerStep st c with
    | none => none
    | some st2 => readerRun st2 rest

/-! ## Outbound send hook of the framed stream endpoint
(`IPHelper._send`, ip_helper.py lines 71-86) -/

/-- Terminator handling of `_send` (lines 82-84): after `str(data)`, append
`"\r\n"` exactly when the string contains neither `"\r\n"` nor `"\n"`
anywhere (`'\r\n' not in data and '\n' not in data`). -/
def ipTerminate (data : List Char) : List Char :=
  if !(containsSub crlf data) && !(containsSub lf data) then data ++ crlf
  else data

/-- The bytes `_send` writes with `sendall` (lines 85-86): the terminated
string ascii-encoded; an encode error raises (`none`) and nothing is sent. -/
def ipSend (data : List Char) : Option (List Nat) :=
  encodeAscii (ipTerminate data)

/-! ## Writer stage (`BaseCommDeviceHelper.__process_output__`,
base_dev_helper.py lines 352-367) -/

/-- One non-`None` item dequeued by the writer loop (lines 364-367):
`_send(data)` runs first (producing the wire bytes, or raising), then the TX
event bus is posted with `payload=data` — the item exactly as dequeued; the
rebinding of the local `data` inside `_send` never reaches the poster.
Returns `(wire bytes, TX payload)`. -/
def processOneOutput (data : List Char) : Option (List Nat × List Char) :=
  match ipSend data with
  | none => none
  | some bytes => some (bytes, data)

/-- The writer loop over the dequeued items (`None` entries — the shutdown
sentinel or a queue-get timeout — are skipped, line 365).  Returns the wire
byte chunks, the TX-posted payloads, and whether the loop survived (a raising
`_send` terminates the stage, losing everything after it). -/
def processOutputs : List (Option (List Char)) → List (List Nat) × List (List Char) × Bool
  | [] => ([], [], true)
  | none :: rest => processOutputs rest
  | some m :: rest =>
    match ipSend m with
    | none => ([], [], false)
    | some bytes =>
      let r := processOutputs rest
      (bytes :: r.1, m :: r.2.1, r.2.2)

/-! ## Hand-off queue and `send` (base_dev_helper.py lines 77-78, 140-148) -/

/-- Modelled from the spec: the hand-off `Queue` class is imported in the
source (`from utils import Queue as Q`) but its module is not in the source
tree.  Spec §4.1 describes it as a thread-safe FIFO whose `put` appends
without blocking and whose `get` pops the oldest item, returning a
distinguished empty result (`None`, like the shutdown sentinel) on timeout.
Items are therefore `Option`-wrapped, `none` being sentinel/timeout. -/
structure HandQueue (α : Type) where
  items : List (Option α)

/-- Modelled from the spec: FIFO `put` appends at the tail (spec §4.1). -/
def HandQueue.put {α : Type} (q : HandQueue α) (item : Option α) : HandQueue α :=
  ⟨q.items ++ [item]⟩

/-- The client-facing `send` (lines 140-148) puts the message on the outbound
queue; `sendAll` is `send` iterated over a message sequence starting from an
empty queue. -/
def sendAll (msgs : List (List Char)) : HandQueue (List Char) :=
  msgs.foldl (fun q m => q.put (some m)) ⟨[]⟩

/-! ## Shutdown sequence (`BaseCommDeviceHelper.close`,
base_dev_helper.py lines 233-245) -/

/-- The two hand-off queues of a session: `self.__inQ` and `self.__outQ`
(lines 77-78). -/
inductive QueueId
  | inQ
  | outQ
  deriving DecidableEq

/-- The three stage threads of a session: `self.__inT` (reader),
`self.__outT` (writer), `self.__distT` (distributor) (lines 85-93). -/
inductive StageId
  | reader
  | writer
  | distributor
  deriving DecidableEq

/-- Observable actions of `close`, in program order. -/
inductive CloseAct
  | setRunning (b : Bool)
  | transportClose
  | push (q : QueueId)
  | join (s : StageId) (t : Nat)
  deriving DecidableEq

/-- Runtime view of a session at `close` time: the configured timeout
(`self.timeout = kwargs.get("timeout", 4)`, line 80) and which stage threads
are still alive. -/
structure SessionThreads where
  timeout : Nat
  inAlive : Bool
  outAlive : Bool
  distAlive : Bool

/-- The `close` sequence (lines 233-245): set `continue_thread = False`, call
the transport `_close` hook, then for each stage thread still alive push one
`None` sentinel and join with `timeout=4`.  The reader's sentinel goes to
`self.__inQ` (line 237), the writer's to `self.__outQ` (line 240), and the
distributor's also to `self.__outQ` (line 243). -/
def close (s : SessionThreads) : List CloseAct :=
  [CloseAct.setRunning false, CloseAct.transportClose]
    ++ (if s.inAlive then [CloseAct.push QueueId.inQ, CloseAct.join StageId.reader 4] else [])
    ++ (if s.outAlive then [CloseAct.push QueueId.outQ, CloseAct.join StageId.writer 4] else [])
    ++ (if s.distAlive then [CloseAct.push QueueId.outQ, CloseAct.join StageId.distributor 4] else [])

/-- The queue the distributor stage blocks on: `__distribute_input__` does
`data = self.__inQ.get(timeout=5)` (line 379). -/
def distributorSource : QueueId := QueueId.inQ

/-- The queue the writer stage blocks on: `__process_output__` is started on
`self.__outQ` (line 89) and does `queue.get(timeout=5)` (line 364). -/
def writerSource : QueueId := QueueId.outQ

/-- Timeout extractor for join actions in a `close` trace. -/
def joinTime : CloseAct → Option Nat
  | CloseAct.join _ t => some t
  | _ => none

/-! ## Event-bus routing of the device session
(base_dev_helper.py lines 68-75 and 150-223) -/

/-- The RX channel name: `self.RX_EVENT = self.name + 'InEvent'` (line 69). -/
def rxEventName (name : String) : String := name ++ "InEvent"

/-- The TX channel name: `self.TX_EVENT = self.name + 'OutEvent'` (line 70). -/
def txEventName (name : String) : String := name ++ "OutEvent"

/-- The parts of a `BaseCommDeviceHelper` that the channel-routed operations
touch: the class name and the two event buses held in `self.__event`
(lines 74-75).  Session payloads are strings (received lines, sent data and
the start/stop announcements). -/
structure DevSession (β κ : Type) where
  name : String
  rx : EventHandler String β κ
  tx : EventHandler String β κ

/-- The `self.__event` dictionary (lines 74-75): exactly two buses, keyed by
the RX and TX channel names. -/
def DevSession.events {β κ : Type} (s : DevSession β κ) :
    List (String × EventHandler String β κ) :=
  [(rxEventName s.name, s.rx), (txEventName s.name, s.tx)]

/-- Channel-routed `subscribe` (lines 150-172): a missing `event` argument
defaults to the RX channel; `self.__event[event]` raises `KeyError(event)`
(modelled `Except.error event`) when the key is neither channel name. -/
def DevSession.subscribe {β κ : Type} (s : DevSession β κ) (name : String)
    (call_back : β) (event : Option String) (cookie : Option κ) :
    Except String (DevSession β κ) :=
  let ev := event.getD (rxEventName s.name)
  if ev = rxEventName s.name then
    Except.ok { s with rx := s.rx.subscribe name call_back cookie }
  else if ev = txEventName s.name then
    Except.ok { s with tx := s.tx.subscribe name call_back cookie }
  else Except.error ev

/-- Channel-routed `unsubscribe` (lines 174-188): same defaulting and same
`KeyError` behaviour as `subscribe`. -/
def DevSession.unsubscribe {β κ : Type} (s : DevSession β κ) (name : String)
    (event : Option String) : Except String (DevSession β κ) :=
  let ev := event.getD (rxEventName s.name)
  if ev = rxEventName s.name then
    Except.ok { s with rx := s.rx.unsubscribe name }
  else if ev = txEventName s.name then
    Except.ok { s with tx := s.tx.unsubscribe name }
  else Except.error ev

/-- Channel-routed `start` (lines 190-207): default the channel, `subscribe`,
then post the announcement `'Start logging topic %s to %s' % (event, name)`
on that channel's bus.  The observations of the post are returned with the
updated session. -/
def DevSession.start {β κ : Type} (s : DevSession β κ) (name : String)
    (call_back : β) (event : Option String) (cookie : Option κ)
    (invoke : β → Packet String κ → Packet String κ) :
    Except String (DevSession β κ × List (String × β × Packet String κ)) :=
  let ev := event.getD (rxEventName s.name)
  match s.subscribe name call_back (some ev) cookie with
  | Except.error e => Except.error e
  | Except.ok s2 =>
    if ev = rxEventName s.name then
      Except.ok (s2, s2.rx.post invoke ("Start logging topic " ++ ev ++ " to " ++ name))
    else if ev = txEventName s.name then
      Except.ok (s2, s2.tx.post invoke ("Start logging topic " ++ ev ++ " to " ++ name))
    else Except.error ev

/-- Channel-routed `stop` (lines 209-223): default the channel, post the
announcement `'Stop logging topic %s to %s' % (event, name)` on that
channel's bus (raising `KeyError` for an unknown channel), then
`unsubscribe`. -/
def DevSession.stop {β κ : Type} (s : DevSession β κ) (name : String)
    (event : Option String)
    (invoke : β → Packet String κ → Packet String κ) :
    Except String (DevSession β κ × List (String × β × Packet String κ)) :=
  let ev := event.getD (rxEventName s.name)
  if ev = rxEventName s.name then
    match s.unsubscribe name (some ev) with
    | Except.error e => Except.error e
    | Except.ok s2 =>
      Except.ok (s2, s.rx.post invoke ("Stop logging topic " ++ ev ++ " to " ++ name))
  else if ev = txEventName s.name then
    match s.unsubscribe name (some ev) with
    | Except.error e => Except.error e
    | Except.ok s2 =>
      Except.ok (s2, s.tx.post invoke ("Stop logging topic " ++ ev ++ " to " ++ name))
  else Except.error ev

/-- Definition following the specification's words, for comparison with the
code's `ipTerminate` only: append `"\r\n"` iff the string does not already
END in a recognized line terminator (`"\r\n"` or `"\n"`). -/
def specTerminate (s : List Char) : List Char :=
  if crlf <:+ s ∨ lf <:+ s then s else s ++ crlf

/-! ## Helper lemmas -/

/-- The boolean prefix test agrees with `List.IsPrefix`. -/
theorem isPrefixL_iff : ∀ (p s : List Char), isPrefixL p s = true ↔ p <+: s
  | [], s => by simp [isPrefixL]
  | a :: as, [] => by simp [isPrefixL]
  | a :: as, b :: bs => by
    rw [List.cons_prefix_cons, ← isPrefixL_iff as bs]
    simp [isPrefixL]

/-- The model of Python's `in` agrees with `List.IsInfix`. -/
theorem containsSub_iff : ∀ (p s : List Char), containsSub p s = true ↔ p <:+: s
  | p, [] => by simp [containsSub, isPrefixL_iff]
  | p, a :: t => by
    simp [containsSub, isPrefixL_iff, containsSub_iff p t, List.infix_cons_iff]

/-- Ascii characters survive the terminator handling of `_send`: the appended
`"\r\n"` is itself ascii. -/
theorem ipTerminate_ascii {s : List Char}
    (hs : (s.all fun c => c.toNat < 128) = true) :
    ((ipTerminate s).all fun c => c.toNat < 128) = true := by
  unfold ipTerminate
  split
  · rw [List.all_append, hs]; rfl
  · exact hs

/-- For an ascii message, `_send` writes exactly the bytes of the terminated
string, one byte per character. -/
theorem ipSend_of_ascii {s : List Char}
    (hs : (s.all fun c => c.toNat < 128) = true) :
    ipSend s = some ((ipTerminate s).map Char.toNat) := by
  simp [ipSend, encodeAscii, ipTerminate_ascii hs]

/-- Projection of the dispatch loop: each observation carries the subscriber
name together with the `dest`/`cookie` values the packet held at call time,
and these are determined by the routine list alone, not by `invoke`. -/
theorem postD_dest_cookie {α β κ : Type} (invoke : β → Packet α κ → Packet α κ) :
    ∀ (routines : List (String × β × Option κ)) (p : Packet α κ),
      (postD invoke routines p).map (fun o => (o.1, o.2.2.dest, o.2.2.cookie))
        = routines.map (fun r => (r.1, some r.1, r.2.2))
  | [], _ => rfl
  | (nm, cb, ck) :: rest, p => by
    simp [postD, postD_dest_cookie invoke rest]

/-- The dispatch loop preserves, per subscriber name, which callbacks get
invoked: filtering observations on a name gives the callbacks registered
under that name, independently of `invoke` and the packet. -/
theorem postD_filterMap_cb {α β κ : Type}
    (invoke : β → Packet α κ → Packet α κ) (nm : String) :
    ∀ (routines : List (String × β × Option κ)) (p : Packet α κ),
      (postD invoke routines p).filterMap
          (fun o => if o.1 = nm then some o.2.1 else none)
        = routines.filterMap (fun r => if r.1 = nm then some r.2.1 else none)
  | [], _ => rfl
  | (n2, cb, ck) :: rest, p => by
    by_cases hn : n2 = nm <;>
      simp [postD, hn, postD_filterMap_cb invoke nm rest]

/-- Subscribing twice under one name: the second call is always a no-op,
whatever callback and cookie it carries. -/
theorem subscribe_twice {α β κ : Type} (h : EventHandler α β κ)
    (nm : String) (cb1 cb2 : β) (ck1 ck2 : Option κ) :
    (h.subscribe nm cb1 ck1).subscribe nm cb2 ck2 = h.subscribe nm cb1 ck1 := by
  unfold EventHandler.subscribe
  by_cases hc : h.cb_routines.any (fun r => r.1 == nm) = true
  · simp [hc]
  · simp [hc, List.any_append]

/-! ## Claim theorems -/

/-- C1 (code_bug evidence): with all three stages alive, the embedded `close`
performs, in order: running flag off, transport close, sentinel to the
inbound queue + join reader, sentinel to the outbound queue + join writer,
then a second sentinel to the **outbound** queue + join distributor — even
though the distributor stage blocks on the inbound queue
(`distributorSource`), so its sentinel is pushed onto a queue it never
reads. -/
theorem close_dist_sentinel_wrong_queue :
    close { timeout := 4, inAlive := true, outAlive := true, distAlive := true }
      = [CloseAct.setRunning false, CloseAct.transportClose,
         CloseAct.push QueueId.inQ, CloseAct.join StageId.reader 4,
         CloseAct.push QueueId.outQ, CloseAct.join StageId.writer 4,
         CloseAct.push QueueId.outQ, CloseAct.join StageId.distributor 4]
    ∧ distributorSource = QueueId.inQ
    ∧ QueueId.outQ ≠ distributorSource := by
  refine ⟨rfl, rfl, by decide⟩

/-- C9 (counterexample): for a session configured with `timeout = 7`, the
joins performed by `close` all use the literal timeout 4, not the configured
value. -/
theorem close_timeout_counterexample :
    (close { timeout := 7, inAlive := true, outAlive := true,
             distAlive := true }).filterMap joinTime = [4, 4, 4]
    ∧ ([4, 4, 4] : List Nat) ≠ [7, 7, 7] := by
  refine ⟨rfl, by decide⟩

/-- C9 (amended): for every session state, whatever timeout was configured
and whichever stages are alive, every join performed by `close` uses the
fixed timeout 4. -/
theorem close_joins_fixed_four (s : SessionThreads) :
    ((close s).filterMap joinTime).all (fun x => x == 4) = true := by
  rcases s with ⟨t, i, o, d⟩
  cases i <;> cases o <;> cases d <;> rfl

/-- C4 (counterexample): for the message `"ping"` the writer stage posts the
TX event with payload exactly `"ping"` — the dequeued item itself — and that
payload does not end in `"ping\r\n"` (the terminator appended inside `_send`
is local to `_send` and never reaches the bus). -/
theorem tx_payload_ping_counterexample :
    (processOneOutput ['p', 'i', 'n', 'g']).map (fun r => r.2)
      = some ['p', 'i', 'n', 'g']
    ∧ ¬ (['p', 'i', 'n', 'g'] ++ crlf) <:+ ['p', 'i', 'n', 'g'] := by
  refine ⟨rfl, by decide⟩

/-- C4 (amended): processing `"ping"` in the writer stage writes the bytes of
`"ping\r\n"` (ascii 112 105 110 103 13 10) to the wire and fires the TX event
bus with payload exactly `"ping"`, without the appended terminator. -/
theorem tx_payload_ping_amended :
    processOneOutput ['p', 'i', 'n', 'g']
      = some ([112, 105, 110, 103, 13, 10], ['p', 'i', 'n', 'g']) := by
  rfl

/-- C5 (counterexample): for the message `"a\nb"`, which contains a
terminator mid-body but does not end in one, the code's `_send` appends
nothing, while the claimed ends-in rule (`specTerminate`) would append
`"\r\n"`; the two disagree at this input. -/
theorem send_terminate_midbody_counterexample :
    ipTerminate ['a', '\n', 'b'] = ['a', '\n', 'b']
    ∧ specTerminate ['a', '\n', 'b'] = ['a', '\n', 'b'] ++ crlf
    ∧ ipTerminate ['a', '\n', 'b'] ≠ specTerminate ['a', '\n', 'b'] := by
  refine ⟨rfl, ?_, ?_⟩ <;> decide

/-- C5 (amended): `_send` appends `"\r\n"` iff the stringified message
contains neither `"\r\n"` nor `"\n"` anywhere (containment, not a suffix
test); the terminated string is then ascii-encoded, one byte per character,
and written in full. -/
theorem send_terminate_amended (s : List Char) :
    (¬ crlf <:+: s → ¬ lf <:+: s → ipTerminate s = s ++ crlf)
    ∧ (crlf <:+: s ∨ lf <:+: s → ipTerminate s = s)
    ∧ ((s.all fun c => c.toNat < 128) = true →
        ipSend s = some ((ipTerminate s).map Char.toNat)) := by
  refine ⟨?_, ?_, ?_⟩
  · intro h1 h2
    have c1 : containsSub crlf s = false := by
      rw [← Bool.not_eq_true, containsSub_iff]; exact h1
    have c2 : containsSub lf s = false := by
      rw [← Bool.not_eq_true, containsSub_iff]; exact h2
    simp [ipTerminate, c1, c2]
  · intro h
    rcases h with h | h
    · have c1 : containsSub crlf s = true := (containsSub_iff crlf s).mpr h
      simp [ipTerminate, c1]
    · have c2 : containsSub lf s = true := (containsSub_iff lf s).mpr h
      simp [ipTerminate, c2]
  · exact fun hall => ipSend_of_ascii hall

/-- C5 (witness): a terminator-free message gets `"\r\n"` appended, a
terminator-final message is left alone, and the terminator-free one is
ascii-encoded after termination. -/
theorem send_terminate_amended_witness :
    ipTerminate ['h', 'i'] = ['h', 'i'] ++ crlf
    ∧ ipTerminate ['o', 'k', '\n'] = ['o', 'k', '\n']
    ∧ ipSend ['h', 'i'] = some ((ipTerminate ['h', 'i']).map Char.toNat) := by
  refine ⟨(send_terminate_amended ['h', 'i']).1 (by decide) (by decide),
          (send_terminate_amended ['o', 'k', '\n']).2.1 (Or.inr (by decide)),
          (send_terminate_amended ['h', 'i']).2.2 (by decide)⟩

/-- C2: for the reader stage of the framed stream endpoint, one loop
iteration satisfies: an empty chunk changes nothing (no flush, no reset); a
non-empty decodable chunk is appended to the accumulator, and the whole
accumulator (terminator and any following bytes included) is enqueued as one
message with the accumulator reset exactly when it now contains a terminator;
at most one message is enqueued per iteration; and a terminator split across
two chunks yields exactly one enqueued message. -/
theorem reader_framing_spec (msg : List Char) (outs : List (List Char))
    (chunk : List Nat) :
    (chunk = [] → readerStep ⟨msg, outs⟩ chunk = some ⟨msg, outs⟩)
    ∧ (∀ d, chunk ≠ [] → decodeAscii chunk = some d →
        (hasTerminator (msg ++ d) = true →
          readerStep ⟨msg, outs⟩ chunk = some ⟨[], outs ++ [msg ++ d]⟩)
        ∧ (hasTerminator (msg ++ d) = false →
          readerStep ⟨msg, outs⟩ chunk = some ⟨msg ++ d, outs⟩))
    ∧ (∀ st2, readerStep ⟨msg, outs⟩ chunk = some st2 →
        st2.outQ.length ≤ outs.length + 1)
    ∧ (∀ c1 c2 d1 d2, c1 ≠ [] → c2 ≠ [] →
        decodeAscii c1 = some d1 → decodeAscii c2 = some d2 →
        hasTerminator (msg ++ d1) = false →
        hasTerminator (msg ++ d1 ++ d2) = true →
        readerRun ⟨msg, outs⟩ [c1, c2] = some ⟨[], outs ++ [msg ++ d1 ++ d2]⟩) := by
  refine ⟨?_, ?_, ?_, ?_⟩
  · intro he
    subst he
    rfl
  · intro d hne hdec
    have hlen : ¬ chunk.length = 0 := by
      simpa [List.length_eq_zero] using hne
    constructor <;> intro ht <;> simp [readerStep, hlen, hdec, ht]
  · intro st2 hstep
    by_cases hz : chunk.length = 0
    · rw [readerStep, if_pos hz] at hstep
      cases hstep
      exact Nat.le_succ _
    · cases hdec : decodeAscii chunk with
      | none =>
        rw [readerStep, if_neg hz, hdec] at hstep
        cases hstep
      | some d =>
        have hred : readerStep ⟨msg, outs⟩ chunk
            = if hasTerminator (msg ++ d) = true
              then some ⟨[], outs ++ [msg ++ d]⟩
              else some ⟨msg ++ d, outs⟩ := by
          simp [readerStep, hz, hdec]
        rw [hred] at hstep
        by_cases hterm : hasTerminator (msg ++ d) = true
        · rw [if_pos hterm] at hstep
          cases hstep
          simp
        · rw [if_neg hterm] at hstep
          cases hstep
          simp
  · intro c1 c2 d1 d2 h1 h2 hd1 hd2 hnt ht
    have hl1 : ¬ c1.length = 0 := by simpa [List.length_eq_zero] using h1
    have hl2 : ¬ c2.length = 0 := by simpa [List.length_eq_zero] using h2
    have s1 : readerStep ⟨msg, outs⟩ c1 = some ⟨msg ++ d1, outs⟩ := by
      simp [readerStep, hl1, hd1, hnt]
    have ht2 : hasTerminator (msg ++ (d1 ++ d2)) = true := by
      rw [← List.append_assoc]
      exact ht
    have s2 : readerStep ⟨msg ++ d1, outs⟩ c2
        = some ⟨[], outs ++ [msg ++ d1 ++ d2]⟩ := by
      simp [readerStep, hl2, hd2, ht2]
    simp [readerRun, s1, s2]

/-- C2 (witness): the chunks `b"a\r"` then `b"\n"` — the CRLF terminator
split across two reads — produce exactly the single message `"a\r\n"`. -/
theorem reader_framing_spec_witness :
    readerRun ⟨[], []⟩ [[97, 13], [10]] = some ⟨[], [['a', '\r', '\n']]⟩ :=
  (reader_framing_spec [] [] []).2.2.2 [97, 13] [10] ['a', '\r'] ['\n']
    (by decide) (by decide) (by decide) (by decide) (by decide) (by decide)

/-- C3: `post` builds one packet for the call and every subscriber callback
observes `dest` equal to its own subscription name and `cookie` equal to its
own registered cookie — for every interpretation `invoke` of the callbacks,
i.e. however earlier callbacks mutate the dispatched packet's fields, because
the bus rewrites `dest`/`cookie` immediately before each invocation. -/
theorem post_isolates_dest_cookie {α β κ : Type} (h : EventHandler α β κ)
    (invoke : β → Packet α κ → Packet α κ) (payload : α) :
    (h.post invoke payload).map (fun o => (o.1, o.2.2.dest, o.2.2.cookie))
      = h.cb_routines.map (fun r => (r.1, some r.1, r.2.2)) :=
  postD_dest_cookie invoke h.cb_routines _

/-- The writer loop over an all-ascii message sequence: transmission succeeds
and the TX-posted payloads are exactly the messages, in order. -/
theorem processOutputs_map_some : ∀ (msgs : List (List Char)),
    (∀ m ∈ msgs, (m.all fun c => c.toNat < 128) = true) →
    (processOutputs (msgs.map some)).2.1 = msgs
      ∧ (processOutputs (msgs.map some)).2.2 = true
  | [], _ => ⟨rfl, rfl⟩
  | m :: rest, hall => by
    have hsend := ipSend_of_ascii (hall m (by simp))
    have ih := processOutputs_map_some rest (fun x hx => hall x (by simp [hx]))
    simp [processOutputs, hsend, ih.1, ih.2]

/-- The outbound queue after `send`-ing a message sequence holds exactly
those messages, oldest first. -/
theorem sendAll_items (msgs : List (List Char)) :
    (sendAll msgs).items = msgs.map some := by
  have aux : ∀ (l : List (List Char)) (q : HandQueue (List Char)),
      (l.foldl (fun q2 m => q2.put (some m)) q).items = q.items ++ l.map some := by
    intro l
    induction l with
    | nil => intro q; simp
    | cons m rest ih =>
      intro q
      rw [List.foldl_cons, ih]
      simp [HandQueue.put]
  simpa using aux msgs ⟨[]⟩

/-- C6: for any sequence of ascii messages passed to `send`, the TX event bus
observes exactly those messages, in the same order and with the same content
(FIFO outbound queue, single writer consumer, payload posted as dequeued). -/
theorem tx_order_content_preserved (msgs : List (List Char))
    (hascii : ∀ m ∈ msgs, (m.all fun c => c.toNat < 128) = true) :
    (processOutputs (sendAll msgs).items).2.1 = msgs
    ∧ (processOutputs (sendAll msgs).items).2.2 = true := by
  rw [sendAll_items]
  exact processOutputs_map_some msgs hascii

/-- C6 (witness): sending `"hi"` then `"yo"` makes the TX bus observe
`["hi", "yo"]`, in order, with the writer stage surviving. -/
theorem tx_order_content_preserved_witness :
    (processOutputs (sendAll [['h', 'i'], ['y', 'o']]).items).2.1
      = [['h', 'i'], ['y', 'o']]
    ∧ (processOutputs (sendAll [['h', 'i'], ['y', 'o']]).items).2.2 = true :=
  tx_order_content_preserved [['h', 'i'], ['y', 'o']] (by decide)

/-- C7: re-subscribing an existing name (any callback, any cookie) is a no-op
leaving the first registration in place, and a subsequent `post` invokes the
first-registered callback exactly once for that name: the observations
filtered on the name carry precisely the one callback `cb1`. -/
theorem subscribe_idempotent_first_wins {α β κ : Type} (h : EventHandler α β κ)
    (nm : String) (cb1 cb2 : β) (ck1 ck2 : Option κ)
    (invoke : β → Packet α κ → Packet α κ) (payload : α) :
    (h.subscribe nm cb1 ck1).subscribe nm cb2 ck2 = h.subscribe nm cb1 ck1
    ∧ (nm ∉ h.cb_routines.map (fun r => r.1) →
        (((h.subscribe nm cb1 ck1).subscribe nm cb2 ck2).post invoke
            payload).filterMap
            (fun o => if o.1 = nm then some o.2.1 else none) = [cb1]) := by
  refine ⟨subscribe_twice h nm cb1 cb2 ck1 ck2, ?_⟩
  intro hfresh
  rw [subscribe_twice h nm cb1 cb2 ck1 ck2]
  have hc : ¬ h.cb_routines.any (fun r => r.1 == nm) = true := by
    rw [List.any_eq_true]
    rintro ⟨x, hx, hb⟩
    exact hfresh (List.mem_map.mpr ⟨x, hx, by simpa using hb⟩)
  have hsub : h.subscribe nm cb1 ck1
      = { h with cb_routines := h.cb_routines ++ [(nm, cb1, ck1)] } := by
    simp [EventHandler.subscribe, hc]
  rw [hsub]
  unfold EventHandler.post
  rw [postD_filterMap_cb, List.filterMap_append]
  have hnil : h.cb_routines.filterMap
      (fun r => if r.1 = nm then some r.2.1 else none) = [] := by
    rw [List.filterMap_eq_nil_iff]
    intro x hx
    have hxne : ¬ x.1 = nm := fun he => hfresh (List.mem_map.mpr ⟨x, hx, he⟩)
    simp [hxne]
  rw [hnil]
  simp

/-- C7 (witness): on a fresh bus, subscribing `"a"` with callback tag 1 and
again with tag 2 dispatches tag 1 exactly once for `"a"`. -/
theorem subscribe_idempotent_first_wins_witness :
    ((((EventHandler.init (some "ev") "src" : EventHandler Nat Nat Nat).subscribe
          "a" 1 none).subscribe "a" 2 none).post (fun _ p => p) 0).filterMap
        (fun o => if o.1 = "a" then some o.2.1 else none) = [1] :=
  (subscribe_idempotent_first_wins
      (EventHandler.init (some "ev") "src") "a" 1 2 none none
      (fun _ p => p) 0).2 (by decide)

/-- Core behaviour of the raising dispatch loop: the invoked observations are
an insertion-order prefix of the routine snapshot; with no raise every
routine is invoked; a propagated error comes from the last invoked callback
and every earlier one returned normally. -/
theorem postDE_spec {α β κ E : Type}
    (invoke : β → Packet α κ → Except E (Packet α κ)) :
    ∀ (routines : List (String × β × Option κ)) (p : Packet α κ),
      ((postDE invoke routines p).2.map (fun o => o.1)
          = (routines.map (fun r => r.1)).take (postDE invoke routines p).2.length)
      ∧ ((postDE invoke routines p).1 = Except.ok () →
          (postDE invoke routines p).2.length = routines.length)
      ∧ (∀ e, (postDE invoke routines p).1 = Except.error e →
          ∃ l x, (postDE invoke routines p).2 = l ++ [x]
            ∧ invoke x.2.1 x.2.2 = Except.error e
            ∧ ∀ o ∈ l, ∃ q, invoke o.2.1 o.2.2 = Except.ok q)
  | [], p => by simp [postDE]
  | (nm, cb, ck) :: rest, p => by
    cases hinv : invoke cb { p with dest := some nm, cookie := ck } with
    | error e =>
      refine ⟨?_, ?_, ?_⟩
      · simp [postDE, hinv]
      · simp [postDE, hinv]
      · intro e2 he2
        simp only [postDE, hinv] at he2 ⊢
        cases he2
        exact ⟨[], (nm, cb, { p with dest := some nm, cookie := ck }),
          by simp, hinv, by simp⟩
    | ok p2 =>
      have ih := postDE_spec invoke rest p2
      refine ⟨?_, ?_, ?_⟩
      · simp only [postDE, hinv, List.map_cons, List.length_cons,
          List.take_succ_cons]
        exact congrArg _ ih.1
      · intro hok
        simp only [postDE, hinv] at hok ⊢
        simp only [List.length_cons, ih.2.1 hok]
      · intro e he
        simp only [postDE, hinv] at he ⊢
        obtain ⟨l, x, hlx, hraise, hprev⟩ := ih.2.2 e he
        refine ⟨(nm, cb, { p with dest := some nm, cookie := ck }) :: l, x,
          by rw [hlx]; rfl, hraise, ?_⟩
        intro o ho
        rcases List.mem_cons.mp ho with ho1 | ho2
        · subst ho1; exact ⟨p2, hinv⟩
        · exact hprev o ho2

/-- C8: when a subscriber callback raises during `post`, the exception
propagates out of `post` (the bus catches nothing), the subscribers invoked
form the insertion-order snapshot prefix ending at the raising callback (all
earlier ones returned normally), and the bus's subscription mapping is
exactly what it was before the call. -/
theorem post_callback_raise_semantics {α β κ E : Type} (h : EventHandler α β κ)
    (invoke : β → Packet α κ → Except E (Packet α κ)) (payload : α) :
    (h.postRaise invoke payload).handler = h
    ∧ ((h.postRaise invoke payload).invoked.map (fun o => o.1)
        = (h.cb_routines.map (fun r => r.1)).take
            (h.postRaise invoke payload).invoked.length)
    ∧ ((h.postRaise invoke payload).result = Except.ok () →
        (h.postRaise invoke payload).invoked.length = h.cb_routines.length)
    ∧ (∀ e, (h.postRaise invoke payload).result = Except.error e →
        ∃ l x, (h.postRaise invoke payload).invoked = l ++ [x]
          ∧ invoke x.2.1 x.2.2 = Except.error e
          ∧ ∀ o ∈ l, ∃ q, invoke o.2.1 o.2.2 = Except.ok q) := by
  have hs := postDE_spec invoke h.cb_routines
    { h.packet with payload := some payload }
  exact ⟨rfl, hs.1, hs.2.1, hs.2.2⟩

/-- Callback interpretation for the C8 witness: tag `true` returns the packet
unchanged, tag `false` raises error 7. -/
def invRaise : Bool → Packet Nat Nat → Except Nat (Packet Nat Nat) :=
  fun b p => if b then Except.ok p else Except.error 7

/-- Bus for the C8 witness: subscribers `"a"` (well-behaved), `"b"`
(raising), `"c"` (well-behaved, never reached). -/
def hEx : EventHandler Nat Bool Nat :=
  (((EventHandler.init (some "ev") "src").subscribe "a" true none).subscribe
      "b" false none).subscribe "c" true none

/-- C8 (witness): on `hEx` the post raises error 7 out of the bus, the
invoked prefix ends at the raiser with all earlier callbacks normal, and the
subscription mapping is unchanged. -/
theorem post_callback_raise_semantics_witness :
    (∃ l x, ((hEx.postRaise invRaise 0).invoked = l ++ [x]
        ∧ invRaise x.2.1 x.2.2 = Except.error 7
        ∧ ∀ o ∈ l, ∃ q, invRaise o.2.1 o.2.2 = Except.ok q))
    ∧ (hEx.postRaise invRaise 0).handler = hEx :=
  ⟨(post_callback_raise_semantics hEx invRaise 0).2.2.2 7 rfl,
   (post_callback_raise_semantics hEx invRaise 0).1⟩

/-- C10: a device session holds exactly the two event buses keyed by its RX
and TX channel names; `subscribe`, `unsubscribe`, `start` and `stop` with an
explicit channel that is neither name raise `KeyError(channel)` (modelled
`Except.error`), and omitting the channel argument makes each operation act
as if the RX channel had been named. -/
theorem session_two_buses_keyerror_default {β κ : Type} (s : DevSession β κ)
    (ev nm : String) (cb : β) (ck : Option κ)
    (invoke : β → Packet String κ → Packet String κ) :
    s.events.map Prod.fst = [rxEventName s.name, txEventName s.name]
    ∧ (ev ≠ rxEventName s.name → ev ≠ txEventName s.name →
        s.subscribe nm cb (some ev) ck = Except.error ev
        ∧ s.unsubscribe nm (some ev) = Except.error ev
        ∧ s.start nm cb (some ev) ck invoke = Except.error ev
        ∧ s.stop nm (some ev) invoke = Except.error ev)
    ∧ s.subscribe nm cb none ck = s.subscribe nm cb (some (rxEventName s.name)) ck
    ∧ s.unsubscribe nm none = s.unsubscribe nm (some (rxEventName s.name))
    ∧ s.start nm cb none ck invoke
        = s.start nm cb (some (rxEventName s.name)) ck invoke
    ∧ s.stop nm none invoke = s.stop nm (some (rxEventName s.name)) invoke := by
  refine ⟨rfl, ?_, rfl, rfl, rfl, rfl⟩
  intro h1 h2
  refine ⟨?_, ?_, ?_, ?_⟩ <;>
    simp [DevSession.subscribe, DevSession.unsubscribe, DevSession.start,
      DevSession.stop, h1, h2]

/-- Session for the C10 witness, named like the concrete endpoint class. -/
def sessEx : DevSession Nat Nat :=
  { name := "IPHelper",
    rx := EventHandler.init (some "IPHelperInEvent") "IPHelper",
    tx := EventHandler.init (some "IPHelperOutEvent") "IPHelper" }

/-- C10 (witness): on a concrete session the channel `"bogus"` makes all four
operations raise `KeyError("bogus")`, and the event map holds exactly the RX
and TX channel names. -/
theorem session_two_buses_keyerror_default_witness :
    (sessEx.subscribe "n" 0 (some "bogus") none = Except.error "bogus"
     ∧ sessEx.unsubscribe "n" (some "bogus") = Except.error "bogus"
     ∧ sessEx.start "n" 0 (some "bogus") none (fun _ p => p) = Except.error "bogus"
     ∧ sessEx.stop "n" (some "bogus") (fun _ p => p) = Except.error "bogus")
    ∧ sessEx.events.map Prod.fst = ["IPHelperInEvent", "IPHelperOutEvent"] :=
  ⟨(session_two_buses_keyerror_default sessEx "bogus" "n" 0 none
      (fun _ p => p)).2.1 (by decide) (by decide),
   (session_two_buses_keyerror_default sessEx "bogus" "n" 0 none
      (fun _ p => p)).1⟩

end Sandboxzilla
